import Mathlib

/-!
Verification development for a Minecraft-to-Discord notification bot
(single module `bot.py`).  The definitions below are a shallow embedding of
the bot's pure logic and of its stateful procedures (state passed
explicitly, I/O results supplied by an explicit environment record).
Python strings are modelled as Lean `String`/`List Char` (the inputs of
interest are ASCII); Python byte offsets are `Nat` indices into the
modelled file content.
-/

/-! ### Python string helpers

`pyIsSpace` models the ASCII part of Python `str.strip()` whitespace.
`pyStrip` removes leading then trailing whitespace, as `str.strip()` does.
`splitOnChar` models Python `str.split(sep)` for a one-character separator:
`"".split(",") == [""]`, `"a,,b".split(",") == ["a","","b"]`.
-/

def pyIsSpace (c : Char) : Bool :=
  c == ' ' || c == '\t' || c == '\n' || c == '\r' || c == '\x0b' || c == '\x0c'

def stripL (l : List Char) : List Char := l.dropWhile pyIsSpace

def stripR (l : List Char) : List Char := (l.reverse.dropWhile pyIsSpace).reverse

def pyStrip (l : List Char) : List Char := stripR (stripL l)

def strMk (l : List Char) : String := ⟨l⟩

def pyStripStr (s : String) : String := strMk (pyStrip s.data)

def splitOnChar (c : Char) : List Char → List (List Char)
  | [] => [[]]
  | a :: l =>
    if a == c then [] :: splitOnChar c l
    else
      match splitOnChar c l with
      | [] => [[a]]
      | t :: ts => (a :: t) :: ts

/-- `matchAt pat l` is true when `pat` occurs at the front of `l`. -/
def matchAt : List Char → List Char → Bool
  | [], _ => true
  | _ :: _, [] => false
  | a :: pa, b :: lb => a == b && matchAt pa lb

/-- Suffix of `l` strictly after the first occurrence of `pat`
(`none` when `pat` does not occur): models Python
`l.split(pat, 1)[1]` guarded by `pat in l`. -/
def afterSub (pat : List Char) : List Char → Option (List Char)
  | [] => if pat.isEmpty then some [] else none
  | c :: rest =>
    if matchAt pat (c :: rest) then some ((c :: rest).drop pat.length)
    else afterSub pat rest

/-- Lines of a text in the style of Python `str.split(chr(10))`. -/
def splitLines (s : String) : List String := (splitOnChar '\n' s.data).map strMk

/-- Lines of a text in the style of Python `file.readlines()` (each line
keeps its trailing newline; an empty text yields no lines). -/
def linesKeep : List Char → List (List Char)
  | [] => []
  | c :: rest =>
    if c == '\n' then [c] :: linesKeep rest
    else
      match linesKeep rest with
      | [] => [[c]]
      | l :: ls => (c :: l) :: ls

/-- `strSlice s pos n`: the `n` characters of `s` starting at offset `pos`
(models `f.seek(pos); f.read(n)`). -/
def strSlice (s : String) (pos n : Nat) : String := strMk ((s.data.drop pos).take n)

/-- Python `int(s)` on a decimal string: optional surrounding whitespace,
optional sign, then at least one ASCII digit; `none` models `ValueError`. -/
def digitsVal (l : List Char) : Option Nat :=
  if l.isEmpty || l.any (fun c => !(c.isDigit)) then none
  else some (l.foldl (fun a c => a * 10 + (c.toNat - 48)) 0)

def pyInt (s : String) : Option Int :=
  match pyStrip s.data with
  | '+' :: ds => (digitsVal ds).map Int.ofNat
  | '-' :: ds => (digitsVal ds).map (fun n => -(n : Int))
  | ds => (digitsVal ds).map Int.ofNat

/-! ### Event extractor: `parse_death_messages` (`bot.py` lines 319-409)

The source compiles the regex
`\[.*?\]: (\w+) (kw1|kw2|...)` with `re.IGNORECASE` and calls
`death_pattern.search(line)`. We embed the satisfiability of that exact
pattern: a match exists iff somewhere in the line there is a literal
substring consisting of `]` `:` `space` preceded (strictly earlier, with
no intervening newline, since `.` does not match a newline) by a `[`, and
followed by a maximal nonempty run of word characters, then a space, then
one of the death keywords compared case-insensitively.  (Because word
characters are never spaces, the greedy `(\w+)` run before the mandatory
space is forced to be the maximal run, so plain existence needs no
backtracking search over run lengths.)
-/

def isWordChar (c : Char) : Bool := c.isAlphanum || c == '_'

/-- Case-insensitive `matchAt` (ASCII folding, matching `re.IGNORECASE`
on the ASCII inputs this program sees). -/
def ciMatchAt : List Char → List Char → Bool
  | [], _ => true
  | _ :: _, [] => false
  | a :: pa, b :: lb => a.toLower == b.toLower && ciMatchAt pa lb

/-- The keyword `was killed by \[Intentional Game Design\]` as the Python
source actually has it: the backslashes are literal characters of the
Python string (not regex syntax, because `re.escape` is applied to the
whole keyword), so the pattern matches a literal backslash-bracket. -/
def kwIntentional : String :=
  "was killed by \\[Intentional Game Design\\]"

/-- The keyword containing an apostrophe, written via its code point. -/
def kwSameWorld : String :=
  strMk ('d' :: 'i' :: 'd' :: 'n' :: Char.ofNat 39 ::
    ("t want to live in the same world as".data))

def death_keywords : List String :=
  [ "was pricked to death"
  , "walked into a cactus"
  , "drowned"
  , "died from dehydration"
  , "experienced kinetic energy"
  , "blew up"
  , "was blown up"
  , kwIntentional
  , "hit the ground too hard"
  , "fell from a high place"
  , "fell off a ladder"
  , "fell off some vines"
  , "fell off some weeping vines"
  , "fell off some twisting vines"
  , "fell off scaffolding"
  , "fell while climbing"
  , "was doomed to fall"
  , "was impaled on a stalagmite"
  , "was squashed by a falling anvil"
  , "was squashed by a falling block"
  , "was skewered by a falling stalactite"
  , "went up in flames"
  , "walked into fire"
  , "burned to death"
  , "was burned to a crisp"
  , "went off with a bang"
  , "tried to swim in lava"
  , "was struck by lightning"
  , "discovered the floor was lava"
  , "walked into the danger zone"
  , "was killed by magic"
  , "froze to death"
  , "was frozen to death"
  , "was slain by"
  , "was stung to death"
  , "was obliterated by a sonically-charged shriek"
  , "was smashed by"
  , "was shot by"
  , "was pummeled by"
  , "was fireballed by"
  , "was shot by a skull from"
  , "starved to death"
  , "suffocated in a wall"
  , "was squished too much"
  , "was squashed by"
  , "left the confines of this world"
  , "was poked to death by a sweet berry bush"
  , "was killed while trying to hurt"
  , "was impaled by"
  , "fell out of the world"
  , kwSameWorld
  , "withered away"
  , "died"
  , "was killed"
  , "was roasted in dragon"
  , "was sniped by"
  , "was spitballed by" ]

/-- Does one of the death keywords occur (case-insensitively) at the
front of `l`?  Models the alternation group of the compiled pattern. -/
def keywordHere (l : List Char) : Bool :=
  death_keywords.any (fun kw => ciMatchAt kw.data l)

/-- After the `]: ` separator the pattern requires `(\w+) ` then a
keyword.  The run of word characters is forced maximal (see above). -/
def nameThenKeyword (l : List Char) : Bool :=
  let run := l.takeWhile isWordChar
  !run.isEmpty &&
    (match l.drop run.length with
     | ' ' :: rest => keywordHere rest
     | _ => false)

/-- `deathSearchAux sb l`: does the pattern match inside `l`, where `sb`
records whether a `[` occurred strictly earlier (with no newline since)? -/
def deathSearchAux : Bool → List Char → Bool
  | _, [] => false
  | sb, c :: rest =>
    (sb && c == ']' &&
      (match rest with
       | ':' :: ' ' :: tail => nameThenKeyword tail
       | _ => false))
    || deathSearchAux (if c == '\n' then false else (sb || c == '[')) rest

def deathPatternSearch (line : String) : Bool := deathSearchAux false line.data

/-- Index of the first occurrence of the three-character separator
`]` `:` `space` in `l` (Python `line.find(']: ')`, with `none` for -1). -/
def sepIdx : List Char → Option Nat
  | [] => none
  | c :: rest =>
    match c, rest with
    | ']', ':' :: ' ' :: _ => some 0
    | _, _ => (sepIdx rest).map (· + 1)

/-- One iteration of the `for line in lines` loop of
`parse_death_messages`: on a pattern match, extract everything after the
bracketed prefix (`line[line.find(chr(93) + chr(58) + chr(32)) + 3:]`),
strip it, and append it unless empty or already collected.  The guard
`msg_start > 3` of the source is `find result >= 1` here. -/
def processLine (acc : List String) (line : String) : List String :=
  if deathPatternSearch line then
    match sepIdx line.data with
    | some i =>
      if 1 ≤ i then
        let msg := strMk (pyStrip (line.data.drop (i + 3)))
        if !msg.isEmpty && !(acc.contains msg) then acc ++ [msg] else acc
      else acc
    | none => acc
  else acc

def parse_death_messages (lines : List String) : List String :=
  lines.foldl processLine []

/-! Sanity checks of the extractor embedding on concrete lines. -/

def lineNoColon : String := "[12:00:00] Steve fell from a high place"

def lineWithColon : String :=
  "[12:00:00] [Server thread/INFO]: Steve fell from a high place"

example : deathPatternSearch lineNoColon = false := by decide
example : deathPatternSearch lineWithColon = true := by decide

/-! ### Command channel: `rcon_list_players` (`bot.py` lines 200-234)

The RCON transport is modelled by its outcome: `Except PyErr String` is
the response when connect-and-command succeed, or the raised exception.
The source wraps everything in `try/except` and re-raises after logging,
so a transport error propagates; the parsing code itself never raises.
Python sets are modelled as `Finset String`.
-/

inductive PyErr where
  | fileNotFound
  | other
deriving DecidableEq

def onlineMarker : List Char := "online:".data

/-- Comma-separated names after the marker: split on commas, strip each
token, drop empty tokens, collect into a set. -/
def namesToSet (l : List Char) : Finset String :=
  ((((splitOnChar ',' l).map pyStrip).filter (· ≠ [])).map strMk).toFinset

def rcon_list_players (resp : Except PyErr String) :
    Except PyErr (Finset String) :=
  match resp with
  | .error e => .error e
  | .ok r =>
    match afterSub onlineMarker r.data with
    | none => .ok ∅
    | some rest =>
      let names_part := pyStrip rest
      if names_part.isEmpty then .ok ∅
      else .ok (namesToSet names_part)

/-- The parsing rule exactly as the specification words it: everything
after the marker substring, split on commas, trimmed of whitespace,
empty tokens discarded; the empty set when the marker is absent. -/
def queryParticipants_spec (resp : String) : Finset String :=
  match afterSub onlineMarker resp.data with
  | none => ∅
  | some rest => namesToSet rest

def respTwo : String := "There are 2 of a max of 20 players online: Alice, Bob"
def respZero : String := "There are 0 of a max of 20 players online:"

example :
    queryParticipants_spec respTwo = ({"Alice", "Bob"} : Finset String) := by decide
example : queryParticipants_spec respZero = (∅ : Finset String) := by decide
example : (rcon_list_players (.ok respTwo)).toOption =
    some ({"Alice", "Bob"} : Finset String) := by decide

/-! ### Configuration validation: `validate_configuration` (lines 147-197)
and the startup guard of `__main__` (lines 550-552).

`os.getenv` yields `Option String` for the settings without defaults;
`RCON_PORT` and `POLL_SECONDS` carry string defaults and are plain
strings.  Python truthiness of a string option: `none` and the empty
string are falsy.
-/

structure RawConfig where
  TOKEN : Option String
  CHANNEL_ID : Option String
  RCON_HOST : Option String
  RCON_PASSWORD : Option String
  RCON_PORT : String
  POLL_SECONDS : String

def pyFalsy : Option String → Bool
  | none => true
  | some s => s.isEmpty

def optStr : Option String → String
  | none => ""
  | some s => s

def msgTokenUnset : String := "DISCORD_TOKEN is not set"
def msgChannelUnset : String := "DISCORD_CHANNEL_ID is not set"
def msgChannelInt : String := "DISCORD_CHANNEL_ID must be a valid integer"
def msgHostUnset : String := "RCON_HOST is not set"
def msgPasswordUnset : String := "RCON_PASSWORD is not set"
def msgPortRange : String := "RCON_PORT must be between 1 and 65535"
def msgPortInt : String := "RCON_PORT must be a valid integer"
def msgPollMin : String := "POLL_SECONDS must be at least 1"
def msgPollInt : String := "POLL_SECONDS must be a valid integer"

def segToken (c : RawConfig) : List String :=
  if pyFalsy c.TOKEN then [msgTokenUnset] else []

def segChannel (c : RawConfig) : List String :=
  if pyFalsy c.CHANNEL_ID then [msgChannelUnset]
  else if (pyInt (optStr c.CHANNEL_ID)).isSome then [] else [msgChannelInt]

def segHost (c : RawConfig) : List String :=
  if pyFalsy c.RCON_HOST then [msgHostUnset] else []

def segPassword (c : RawConfig) : List String :=
  if pyFalsy c.RCON_PASSWORD then [msgPasswordUnset] else []

def segPort (c : RawConfig) : List String :=
  match pyInt c.RCON_PORT with
  | some p => if p < 1 || 65535 < p then [msgPortRange] else []
  | none => [msgPortInt]

def segPoll (c : RawConfig) : List String :=
  match pyInt c.POLL_SECONDS with
  | some p => if p < 1 then [msgPollMin] else []
  | none => [msgPollInt]

/-- The `errors` list accumulated by `validate_configuration`, in source
order.  (The `poll < 3` branch only logs a warning and adds no error.) -/
def validate_errors (c : RawConfig) : List String :=
  segToken c ++ segChannel c ++ segHost c ++ segPassword c ++ segPort c ++ segPoll c

def validate_configuration (c : RawConfig) : Bool :=
  (validate_errors c).isEmpty

/-- The `__main__` guard: `sys.exit(1)` when validation fails, proceed
(`none`) otherwise. -/
def startup_exit (c : RawConfig) : Option Nat :=
  if validate_configuration c then none else some 1

/-! Violation predicates, one per possible error message. -/

def vToken (c : RawConfig) : Bool := pyFalsy c.TOKEN
def vChannelUnset (c : RawConfig) : Bool := pyFalsy c.CHANNEL_ID
def vChannelInt (c : RawConfig) : Bool :=
  !pyFalsy c.CHANNEL_ID && (pyInt (optStr c.CHANNEL_ID)).isNone
def vHost (c : RawConfig) : Bool := pyFalsy c.RCON_HOST
def vPassword (c : RawConfig) : Bool := pyFalsy c.RCON_PASSWORD
def vPortRange (c : RawConfig) : Bool :=
  match pyInt c.RCON_PORT with
  | some p => p < 1 || 65535 < p
  | none => false
def vPortInt (c : RawConfig) : Bool := (pyInt c.RCON_PORT).isNone
def vPollMin (c : RawConfig) : Bool :=
  match pyInt c.POLL_SECONDS with
  | some p => p < 1
  | none => false
def vPollInt (c : RawConfig) : Bool := (pyInt c.POLL_SECONDS).isNone

/-- Any violation at all. -/
def anyViolation (c : RawConfig) : Bool :=
  vToken c || vChannelUnset c || vChannelInt c || vHost c || vPassword c ||
    vPortRange c || vPortInt c || vPollMin c || vPollInt c

/-! ### Reconciliation loop (`poll_loop`, lines 412-504)

C1: one tick's participant diff and notification order (lines 459-478).
C2: the consecutive-failure escalation (lines 448-501).
-/

def poll_joined (last_online current : Finset String) : Finset String :=
  current \ last_online

def poll_left (last_online current : Finset String) : Finset String :=
  last_online \ current

/-- `for player in sorted(joined): ...` — join notifications, one per
joined player, in Python `sorted` (lexicographic) order. -/
def join_notifications (last_online current : Finset String) : List String :=
  (poll_joined last_online current).sort (· ≤ ·)

/-- `if NOTIFY_LOGOUT: for player in sorted(left): ...` — leave
notifications only when enabled. -/
def leave_notifications (notify_logout : Bool)
    (last_online current : Finset String) : List String :=
  if notify_logout then (poll_left last_online current).sort (· ≤ ·) else []

inductive TickOutcome where
  | success
  | failure
deriving DecidableEq

structure LoopState where
  consecutive_errors : Nat
  stopped : Bool
deriving DecidableEq

def max_consecutive_errors : Nat := 5

/-- One iteration of the `while not client.is_closed()` body, abstracted
to the outcome of `rcon_list_players` (the only raising call of the main
`try`; notification and log-tailing failures are caught locally inside
the tick).  On success the counter resets to 0; on failure it increments,
and reaching the threshold closes the client and returns. -/
def poll_step (s : LoopState) (o : TickOutcome) : LoopState :=
  if s.stopped then s
  else
    match o with
    | .success => { consecutive_errors := 0, stopped := false }
    | .failure =>
      let c := s.consecutive_errors + 1
      if max_consecutive_errors ≤ c then
        { consecutive_errors := c, stopped := true }
      else
        { consecutive_errors := c, stopped := false }

def loop_start : LoopState := { consecutive_errors := 0, stopped := false }

def poll_run (s : LoopState) (os : List TickOutcome) : LoopState :=
  os.foldl poll_step s

/-! ### Log tailing: `check_log_for_deaths` (`bot.py` lines 237-316),
`load_log_position` (66-79), `save_log_position` (82-93) and
`get_sftp_connection` (96-144).

The surrounding world is an `Env`:
`posFile` is the content of the `.log_position` store (the integer it
holds, or `none` when absent/unreadable — `load_log_position` catches its
own exceptions and returns 0 in both cases, and `save_log_position`
rewrites it);
`conn` says whether establishing (or reusing) the SFTP session succeeds —
`get_sftp_connection` catches every exception internally and returns
`None` on failure;
`remoteFile` is the remote log content, or the exception raised by
`sftp.stat` (`fileNotFound` is caught by the inner handler, anything else
by the function-level handler);
`remoteReadErr` injects an exception into `sftp.open/seek/read`;
`localFile` is the local log content (`none`: `os.path.exists` is false);
`localStatErr`/`localReadErr` inject exceptions into `os.path.getsize`
and `open/seek/readlines`.
File sizes are the lengths of the modelled contents.
-/

structure BotConfig where
  SFTP_HOST : String
  SFTP_USERNAME : String
  SFTP_PASSWORD : String
  SFTP_LOG_PATH : String
  LOG_FILE_PATH : String

structure Env where
  posFile : Option Nat
  conn : Bool
  remoteFile : Except PyErr String
  remoteReadErr : Bool
  localFile : Option String
  localStatErr : Bool
  localReadErr : Bool

/-- Result of one `check_log_for_deaths` call: the returned messages, the
new in-memory `log_file_position`, the new `.log_position` store content,
the offset handed to `f.seek` when a read was issued (`none`: no read),
and whether the local-file branch was taken. -/
structure TickRes where
  msgs : List String
  pos : Nat
  store : Option Nat
  readFrom : Option Nat
  usedLocal : Bool
deriving DecidableEq

def load_log_position (env : Env) : Nat := (env.posFile).getD 0

def get_sftp_connection (cfg : BotConfig) (env : Env) : Option Unit :=
  if cfg.SFTP_HOST == "" || cfg.SFTP_USERNAME == "" || cfg.SFTP_PASSWORD == ""
  then none
  else if env.conn then some () else none

/-- `use_sftp = SFTP_HOST and SFTP_USERNAME and SFTP_LOG_PATH` (line 257):
note the password is not part of the mode decision. -/
def use_sftp (cfg : BotConfig) : Bool :=
  !(cfg.SFTP_HOST == "") && !(cfg.SFTP_USERNAME == "") &&
    !(cfg.SFTP_LOG_PATH == "")

/-- Lines 250-254: whenever the in-memory position is 0 at entry, it is
overwritten with the persisted value. -/
def effPos (env : Env) (pos0 : Nat) : Nat :=
  if pos0 = 0 then load_log_position env else pos0

/-- The body of the function-level `try` (lines 262-311), with exceptions
propagating as `Except.error`; the error payload carries the globals as
mutated up to the raise point (`msgs` is the local `death_messages`,
still `[]` at every raise point). -/
def tryBlock (cfg : BotConfig) (env : Env) (pos1 : Nat) :
    Except (PyErr × TickRes) TickRes :=
  if use_sftp cfg then
    match get_sftp_connection cfg env with
    | none => .ok ⟨[], pos1, env.posFile, none, false⟩
    | some _ =>
      match env.remoteFile with
      | .error PyErr.fileNotFound =>
        .ok ⟨[], pos1, env.posFile, none, false⟩
      | .error PyErr.other =>
        .error (PyErr.other, ⟨[], pos1, env.posFile, none, false⟩)
      | .ok content =>
        let file_size := content.length
        let pos2 := if pos1 > file_size then 0 else pos1
        if pos2 < file_size then
          if env.remoteReadErr then
            .error (PyErr.other, ⟨[], pos2, env.posFile, some pos2, false⟩)
          else
            let new_content := strSlice content pos2 (file_size - pos2)
            .ok ⟨parse_death_messages (splitLines new_content),
                 file_size, some file_size, some pos2, false⟩
        else .ok ⟨[], pos2, env.posFile, none, false⟩
  else
    match env.localFile with
    | none => .ok ⟨[], pos1, env.posFile, none, true⟩
    | some content =>
      if env.localStatErr then
        .error (PyErr.other, ⟨[], pos1, env.posFile, none, true⟩)
      else
        let file_size := content.length
        let pos2 := if pos1 > file_size then 0 else pos1
        if env.localReadErr then
          .error (PyErr.other, ⟨[], pos2, env.posFile, none, true⟩)
        else
          let new_lines := (linesKeep (content.data.drop pos2)).map strMk
          .ok ⟨parse_death_messages new_lines,
               file_size, some file_size, some pos2, true⟩

/-- `check_log_for_deaths`: load-on-zero, the no-source early return
(line 259), then the `try` body with the function-level handler, which
logs and falls through to `return death_messages` (`[]` at any raise). -/
def check_log_for_deaths (cfg : BotConfig) (env : Env) (pos0 : Nat) : TickRes :=
  let pos1 := effPos env pos0
  if !use_sftp cfg && cfg.LOG_FILE_PATH == "" then
    ⟨[], pos1, env.posFile, none, false⟩
  else
    match tryBlock cfg env pos1 with
    | .ok r => r
    | .error (_, s) => s

/-! Sanity checks of the tailer embedding. -/

def cfgSftp : BotConfig :=
  { SFTP_HOST := "host", SFTP_USERNAME := "user", SFTP_PASSWORD := "pw"
    SFTP_LOG_PATH := "/logs/latest.log", LOG_FILE_PATH := "" }

def envDeath : Env :=
  { posFile := none, conn := true
    remoteFile := .ok lineWithColon, remoteReadErr := false
    localFile := none, localStatErr := false, localReadErr := false }

example :
    check_log_for_deaths cfgSftp envDeath 0 =
      ⟨["Steve fell from a high place"], lineWithColon.length,
        some lineWithColon.length, some 0, false⟩ := by decide

example :
    check_log_for_deaths cfgSftp envDeath lineWithColon.length =
      ⟨[], lineWithColon.length, none, none, false⟩ := by decide

/-! ## Claim theorems -/

/-- C1: one tick of the reconciliation loop computes
`joined = current - last_online` and `left = last_online - current` by
set difference, so the two are always disjoint, and the join
notifications (and, when `NOTIFY_LOGOUT` is enabled, the leave
notifications) are emitted in lexicographically sorted order of
participant name, covering exactly the joined (resp. left) players. -/
theorem c1_diff_disjoint_sorted (prev curr : Finset String) (nl : Bool) :
    Disjoint (poll_joined prev curr) (poll_left prev curr) ∧
    poll_joined prev curr = curr \ prev ∧
    poll_left prev curr = prev \ curr ∧
    List.Sorted (· ≤ ·) (join_notifications prev curr) ∧
    (join_notifications prev curr).toFinset = poll_joined prev curr ∧
    List.Sorted (· ≤ ·) (leave_notifications nl prev curr) ∧
    (leave_notifications true prev curr).toFinset = poll_left prev curr ∧
    leave_notifications false prev curr = [] := by
  refine ⟨?_, rfl, rfl, ?_, ?_, ?_, ?_, rfl⟩
  · exact Disjoint.mono_right Finset.sdiff_subset Finset.sdiff_disjoint
  · exact Finset.sort_sorted _ _
  · exact Finset.sort_toFinset _ _
  · cases nl <;> simp [leave_notifications, Finset.sort_sorted]
  · simp [leave_notifications, Finset.sort_toFinset]

/-- C2: starting from a fresh loop state, exactly 5 consecutive failed
participant queries stop the loop; 4 consecutive failures leave it
running with counter 4, and a following success resets the counter to 0
without stopping. -/
theorem c2_failure_threshold :
    (poll_run loop_start (List.replicate 5 TickOutcome.failure)).stopped = true ∧
    poll_run loop_start (List.replicate 4 TickOutcome.failure) =
      { consecutive_errors := 4, stopped := false } ∧
    poll_run loop_start
        (List.replicate 4 TickOutcome.failure ++ [TickOutcome.success]) =
      { consecutive_errors := 0, stopped := false } := by
  decide

/-- C4 counterexample: the claim's input line
`[12:00:00] Steve fell from a high place` produces no event record at
all — the compiled pattern and the extraction both require the
three-character separator `]` `:` `space`, which this line lacks — so
the extractor does not produce the claimed single record. -/
theorem c4_counterexample :
    parse_death_messages [lineNoColon] = [] ∧
    parse_death_messages [lineNoColon] ≠ ["Steve fell from a high place"] := by
  decide

/-- C4 amended: for a log line in the format the code actually parses,
`[12:00:00] [Server thread/INFO]: Steve fell from a high place`, not
seen before, the extractor produces exactly one record whose text is
`Steve fell from a high place` — everything after the bracketed prefix,
trimmed, not just the matched phrase fragment. -/
theorem c4_amended :
    parse_death_messages [lineWithColon] = ["Steve fell from a high place"] := by
  decide

/-! ### Run-shape lemmas for the log tailer -/

/-- The observable outcome of a healthy SFTP-branch execution (stat and
read both succeed and return consistent data for a remote file with the
given content). -/
def sftpRun (env : Env) (content : String) (pos1 : Nat) : TickRes :=
  let file_size := content.length
  let pos2 := if pos1 > file_size then 0 else pos1
  if pos2 < file_size then
    ⟨parse_death_messages (splitLines (strSlice content pos2 (file_size - pos2))),
      file_size, some file_size, some pos2, false⟩
  else ⟨[], pos2, env.posFile, none, false⟩

/-- The observable outcome of a healthy local-branch execution. -/
def localRun (content : String) (pos1 : Nat) : TickRes :=
  let file_size := content.length
  let pos2 := if pos1 > file_size then 0 else pos1
  ⟨parse_death_messages ((linesKeep (content.data.drop pos2)).map strMk),
    file_size, some file_size, some pos2, true⟩

def sftpHealthy (cfg : BotConfig) (env : Env) (content : String) : Prop :=
  use_sftp cfg = true ∧ cfg.SFTP_PASSWORD ≠ "" ∧ env.conn = true ∧
    env.remoteFile = .ok content ∧ env.remoteReadErr = false

def localHealthy (cfg : BotConfig) (env : Env) (content : String) : Prop :=
  use_sftp cfg = false ∧ cfg.LOG_FILE_PATH ≠ "" ∧
    env.localFile = some content ∧ env.localStatErr = false ∧
    env.localReadErr = false

/-- The configured log source exists and all its I/O succeeds this call,
with `content` as the source text. -/
def healthySource (cfg : BotConfig) (env : Env) (content : String) : Prop :=
  sftpHealthy cfg env content ∨ localHealthy cfg env content

theorem tryBlock_sftp (cfg : BotConfig) (env : Env) (content : String)
    (pos1 : Nat) (h : sftpHealthy cfg env content) :
    tryBlock cfg env pos1 = .ok (sftpRun env content pos1) := by
  obtain ⟨hs, hpw, hc, hf, hr⟩ := h
  have hpw2 : (cfg.SFTP_PASSWORD == "") = false := by
    simpa using hpw
  have hs2 := hs
  simp only [use_sftp, Bool.and_eq_true, Bool.not_eq_true'] at hs2
  unfold tryBlock get_sftp_connection sftpRun
  simp [hs, hs2.1.1, hs2.1.2, hpw2, hc, hf, hr]
  rw [apply_ite (fun r => (Except.ok r : Except (PyErr × TickRes) TickRes))]

theorem check_sftp_run (cfg : BotConfig) (env : Env) (content : String)
    (pos0 : Nat) (h : sftpHealthy cfg env content) :
    check_log_for_deaths cfg env pos0 = sftpRun env content (effPos env pos0) := by
  unfold check_log_for_deaths
  simp [h.1, tryBlock_sftp cfg env content (effPos env pos0) h]

theorem tryBlock_local (cfg : BotConfig) (env : Env) (content : String)
    (pos1 : Nat) (h : localHealthy cfg env content) :
    tryBlock cfg env pos1 = .ok (localRun content pos1) := by
  obtain ⟨hs, hlog, hf, hst, hr⟩ := h
  unfold tryBlock localRun
  simp [hs, hf, hst, hr]

theorem check_local_run (cfg : BotConfig) (env : Env) (content : String)
    (pos0 : Nat) (h : localHealthy cfg env content) :
    check_log_for_deaths cfg env pos0 = localRun content (effPos env pos0) := by
  have hlog2 : (cfg.LOG_FILE_PATH == "") = false := by
    simpa using h.2.1
  unfold check_log_for_deaths
  simp [h.1, hlog2, tryBlock_local cfg env content (effPos env pos0) h]

theorem sftpRun_pos (env : Env) (content : String) (pos1 : Nat) :
    (sftpRun env content pos1).pos = content.length := by
  simp only [sftpRun]
  by_cases h1 : pos1 > content.length
  · by_cases h2 : (0 : Nat) < content.length
    · simp [h1, h2]
    · simp [h1, h2]
      omega
  · by_cases h2 : pos1 < content.length
    · simp [h1, h2]
    · simp [h1, h2]
      omega

theorem localRun_pos (content : String) (pos1 : Nat) :
    (localRun content pos1).pos = content.length := rfl

theorem check_healthy_pos (cfg : BotConfig) (env : Env) (content : String)
    (pos0 : Nat) (h : healthySource cfg env content) :
    (check_log_for_deaths cfg env pos0).pos = content.length := by
  cases h with
  | inl h => rw [check_sftp_run cfg env content pos0 h, sftpRun_pos]
  | inr h => rw [check_local_run cfg env content pos0 h, localRun_pos]

theorem sftpRun_noNew (env : Env) (content : String) (pos1 : Nat)
    (h : pos1 = content.length ∨ content.length = 0) :
    (sftpRun env content pos1).msgs = [] ∧
      (sftpRun env content pos1).readFrom = none := by
  simp only [sftpRun]
  rcases h with h | h
  · simp [h]
  · simp [h]

theorem string_length_data (content : String) :
    content.length = content.data.length := rfl

theorem localRun_noNew (content : String) (pos1 : Nat)
    (h : pos1 = content.length ∨ content.length = 0) :
    (localRun content pos1).msgs = [] := by
  simp only [localRun]
  have hd : content.data.drop (if pos1 > content.length then 0 else pos1) = [] := by
    rcases h with h | h
    · have h2 : ¬ (pos1 > content.length) := by omega
      rw [if_neg h2, h, string_length_data]
      exact List.drop_length _
    · have h3 : content.data = [] := by
        rw [string_length_data] at h
        exact List.length_eq_zero.mp h
      simp [h3]
  simp [hd, linesKeep, parse_death_messages]

theorem check_healthy_noNew (cfg : BotConfig) (env : Env) (content : String)
    (pos0 : Nat) (h : healthySource cfg env content)
    (hp : effPos env pos0 = content.length ∨ content.length = 0) :
    (check_log_for_deaths cfg env pos0).msgs = [] := by
  cases h with
  | inl h =>
    rw [check_sftp_run cfg env content pos0 h]
    exact (sftpRun_noNew env content _ hp).1
  | inr h =>
    rw [check_local_run cfg env content pos0 h]
    exact localRun_noNew content _ hp

theorem sftpRun_readFrom_zero (env : Env) (content : String) (pos1 : Nat)
    (h : content.length < pos1) :
    ∀ j, (sftpRun env content pos1).readFrom = some j → j = 0 := by
  intro j hj
  simp only [sftpRun] at hj
  by_cases h2 : (0 : Nat) < content.length
  · simp [h, h2] at hj
    omega
  · simp [h, h2] at hj

theorem localRun_readFrom_zero (content : String) (pos1 : Nat)
    (h : content.length < pos1) :
    ∀ j, (localRun content pos1).readFrom = some j → j = 0 := by
  intro j hj
  simp only [localRun] at hj
  simp [h] at hj
  omega

theorem check_healthy_rot (cfg : BotConfig) (env : Env) (content : String)
    (pos0 : Nat) (h : healthySource cfg env content)
    (hlt : content.length < effPos env pos0) :
    ∀ j, (check_log_for_deaths cfg env pos0).readFrom = some j → j = 0 := by
  cases h with
  | inl h =>
    rw [check_sftp_run cfg env content pos0 h]
    exact sftpRun_readFrom_zero env content _ hlt
  | inr h =>
    rw [check_local_run cfg env content pos0 h]
    exact localRun_readFrom_zero content _ hlt

theorem effPos_ge (env : Env) (pos0 : Nat) : pos0 ≤ effPos env pos0 := by
  unfold effPos
  by_cases h : pos0 = 0 <;> simp [h]

/-- Shared healthy-environment fact for concrete witnesses. -/
theorem healthy_envDeath : healthySource cfgSftp envDeath lineWithColon :=
  Or.inl ⟨rfl, by decide, rfl, rfl, rfl⟩

/-- C3: across a successful call, the cursor is non-decreasing unless the
observed source size is smaller than the stored position, in which case
it resets and every read issued starts from byte 0 of the (new) file;
in particular, whenever the size observed decreases between two healthy
calls, the second call reads from the beginning of the file. -/
theorem c3_cursor_invariant (cfg : BotConfig) (env : Env) (content : String)
    (pos0 : Nat) (h : healthySource cfg env content) :
    (effPos env pos0 ≤ content.length →
       pos0 ≤ (check_log_for_deaths cfg env pos0).pos ∧
       effPos env pos0 ≤ (check_log_for_deaths cfg env pos0).pos) ∧
    (content.length < effPos env pos0 →
       (∀ j, (check_log_for_deaths cfg env pos0).readFrom = some j → j = 0) ∧
       (check_log_for_deaths cfg env pos0).pos = content.length) ∧
    (∀ env2 content2, healthySource cfg env2 content2 →
       content2.length < content.length →
       ∀ j, (check_log_for_deaths cfg env2
           (check_log_for_deaths cfg env pos0).pos).readFrom = some j → j = 0) := by
  have hpos := check_healthy_pos cfg env content pos0 h
  refine ⟨?_, ?_, ?_⟩
  · intro hle
    constructor
    · rw [hpos]
      exact le_trans (effPos_ge env pos0) hle
    · rw [hpos]
      exact hle
  · intro hlt
    exact ⟨check_healthy_rot cfg env content pos0 h hlt, hpos⟩
  · intro env2 content2 h2 hdec j hj
    have hne : ¬ ((check_log_for_deaths cfg env pos0).pos = 0) := by
      rw [hpos]
      omega
    have heff : effPos env2 (check_log_for_deaths cfg env pos0).pos =
        (check_log_for_deaths cfg env pos0).pos := by
      unfold effPos
      rw [if_neg hne]
    refine check_healthy_rot cfg env2 content2 _ h2 ?_ j hj
    rw [heff, hpos]
    exact hdec

def envRot : Env :=
  { posFile := some 1000, conn := true
    remoteFile := .ok lineWithColon, remoteReadErr := false
    localFile := none, localStatErr := false, localReadErr := false }

/-- Witness for C3: stored position 1000 against a short remote file is a
rotation; every read starts at byte 0 and the cursor lands at the new
size. -/
theorem c3_witness :
    (∀ j, (check_log_for_deaths cfgSftp envRot 0).readFrom = some j → j = 0) ∧
    (check_log_for_deaths cfgSftp envRot 0).pos = lineWithColon.length :=
  (c3_cursor_invariant cfgSftp envRot lineWithColon 0
      (Or.inl ⟨rfl, by decide, rfl, rfl, rfl⟩)).2.1 (by decide)

/-- C5: after a healthy call, a second healthy call against the same
(unchanged) source content returns no events; in particular a call whose
stored cursor is 500 against a source of size 500 returns the empty
list. -/
theorem c5_no_new_bytes (cfg : BotConfig) (env1 : Env) (content : String)
    (pos0 : Nat) (h1 : healthySource cfg env1 content) :
    (∀ env2, healthySource cfg env2 content →
        (check_log_for_deaths cfg env2
            (check_log_for_deaths cfg env1 pos0).pos).msgs = []) ∧
    (pos0 = 500 → content.length = 500 →
        (check_log_for_deaths cfg env1 pos0).msgs = []) := by
  constructor
  · intro env2 h2
    have hpos := check_healthy_pos cfg env1 content pos0 h1
    by_cases hz : content.length = 0
    · exact check_healthy_noNew cfg env2 content _ h2 (Or.inr hz)
    · have heff : effPos env2 (check_log_for_deaths cfg env1 pos0).pos =
          content.length := by
        unfold effPos
        rw [hpos, if_neg hz]
      exact check_healthy_noNew cfg env2 content _ h2 (Or.inl heff)
  · intro h5 hlen
    subst h5
    have heff : effPos env1 500 = content.length := by
      unfold effPos
      simp [hlen]
    exact check_healthy_noNew cfg env1 content 500 h1 (Or.inl heff)

/-- Witness for C5: reading the same remote file twice in a row yields no
events the second time. -/
theorem c5_witness :
    (check_log_for_deaths cfgSftp envDeath
        (check_log_for_deaths cfgSftp envDeath 0).pos).msgs = [] :=
  (c5_no_new_bytes cfgSftp envDeath lineWithColon 0 healthy_envDeath).1
    envDeath healthy_envDeath

theorem tryBlock_error_msgs (cfg : BotConfig) (env : Env) (pos1 : Nat)
    (e : PyErr) (s : TickRes) (h : tryBlock cfg env pos1 = .error (e, s)) :
    s.msgs = [] := by
  simp only [tryBlock] at h
  by_cases hu : use_sftp cfg = true
  · rw [if_pos hu] at h
    cases hg : get_sftp_connection cfg env with
    | none =>
      simp only [hg] at h
      exact absurd h (by simp)
    | some u =>
      simp only [hg] at h
      cases hf : env.remoteFile with
      | error pe =>
        cases pe with
        | fileNotFound =>
          simp only [hf] at h
          exact absurd h (by simp)
        | other =>
          simp only [hf, Except.error.injEq, Prod.mk.injEq] at h
          obtain ⟨h1, h2⟩ := h
          subst h2
          rfl
      | ok content =>
        simp only [hf] at h
        by_cases h2 : (if pos1 > content.length then 0 else pos1) < content.length
        · rw [if_pos h2] at h
          by_cases h3 : env.remoteReadErr = true
          · rw [if_pos h3] at h
            simp only [Except.error.injEq, Prod.mk.injEq] at h
            obtain ⟨h4, h5⟩ := h
            subst h5
            rfl
          · rw [if_neg h3] at h
            exact absurd h (by simp)
        · rw [if_neg h2] at h
          exact absurd h (by simp)
  · rw [if_neg hu] at h
    cases hlf : env.localFile with
    | none =>
      simp only [hlf] at h
      exact absurd h (by simp)
    | some content =>
      simp only [hlf] at h
      by_cases h2 : env.localStatErr = true
      · rw [if_pos h2] at h
        simp only [Except.error.injEq, Prod.mk.injEq] at h
        obtain ⟨h4, h5⟩ := h
        subst h5
        rfl
      · rw [if_neg h2] at h
        by_cases h3 : env.localReadErr = true
        · rw [if_pos h3] at h
          simp only [Except.error.injEq, Prod.mk.injEq] at h
          obtain ⟨h4, h5⟩ := h
          subst h5
          rfl
        · rw [if_neg h3] at h
          exact absurd h (by simp)

/-- C7: `collectNewEvents` never raises: whenever the body of the
function-level `try` raises (stat failure, session loss, read failure),
the exception is caught and the call returns the events found so far
(the empty list, since extraction happens after all I/O); an
unobtainable file-transfer session likewise yields the empty list rather
than an exception, so log tailing never feeds the failure counter. -/
theorem c7_never_raises (cfg : BotConfig) (env : Env) (pos0 : Nat)
    (hsrc : use_sftp cfg = true ∨ cfg.LOG_FILE_PATH ≠ "") :
    (∀ e s, tryBlock cfg env (effPos env pos0) = .error (e, s) →
        check_log_for_deaths cfg env pos0 = s ∧ s.msgs = []) ∧
    (∀ r, tryBlock cfg env (effPos env pos0) = .ok r →
        check_log_for_deaths cfg env pos0 = r) ∧
    (use_sftp cfg = true → get_sftp_connection cfg env = none →
        (check_log_for_deaths cfg env pos0).msgs = []) := by
  have hguard : (!use_sftp cfg && (cfg.LOG_FILE_PATH == "")) = false := by
    rcases hsrc with h | h
    · simp [h]
    · have h2 : (cfg.LOG_FILE_PATH == "") = false := by simpa using h
      simp [h2]
  refine ⟨?_, ?_, ?_⟩
  · intro e s hes
    refine ⟨?_, tryBlock_error_msgs cfg env (effPos env pos0) e s hes⟩
    unfold check_log_for_deaths
    simp [hguard, hes]
  · intro r hr
    unfold check_log_for_deaths
    simp [hguard, hr]
  · intro hu hg
    unfold check_log_for_deaths tryBlock
    simp [hguard, hu, hg]

def envErr : Env :=
  { posFile := none, conn := true
    remoteFile := .error PyErr.other, remoteReadErr := false
    localFile := none, localStatErr := false, localReadErr := false }

/-- Witness for C7: a stat exception is caught; the call returns the
empty list and leaves the cursor untouched. -/
theorem c7_witness :
    check_log_for_deaths cfgSftp envErr 7 =
      ⟨[], 7, none, none, false⟩ ∧
    (⟨[], 7, none, none, false⟩ : TickRes).msgs = [] :=
  (c7_never_raises cfgSftp envErr 7 (Or.inl rfl)).1 PyErr.other
    ⟨[], 7, none, none, false⟩ rfl

/-- C9: every call entering with in-memory cursor 0 behaves exactly as if
the cursor were the persisted value (lines 250-254 reload on zero, not
only on the first call); consequently, after a rotation against an empty
rotated file (which resets the cursor to 0 without persisting), the next
call restores the stale persisted position `P` instead of keeping 0. -/
theorem c9_cursor_reload (cfg : BotConfig) (env1 : Env) (P pos0 : Nat)
    (hP : 0 < P) (h1 : sftpHealthy cfg env1 "")
    (hstore : env1.posFile = some P) :
    (∀ (cfg2 : BotConfig) (env2 : Env),
        check_log_for_deaths cfg2 env2 0 =
          check_log_for_deaths cfg2 env2 (load_log_position env2)) ∧
    (check_log_for_deaths cfg env1 pos0).pos = 0 ∧
    (check_log_for_deaths cfg env1 pos0).store = some P ∧
    (∀ env2 : Env, env2.posFile = (check_log_for_deaths cfg env1 pos0).store →
        effPos env2 (check_log_for_deaths cfg env1 pos0).pos = P ∧ P ≠ 0) := by
  have hrun := check_sftp_run cfg env1 "" pos0 h1
  have heff : 0 < effPos env1 pos0 := by
    unfold effPos load_log_position
    by_cases hz : pos0 = 0
    · rw [if_pos hz, hstore]
      exact hP
    · rw [if_neg hz]
      omega
  have hr1 : check_log_for_deaths cfg env1 pos0 =
      ⟨[], 0, env1.posFile, none, false⟩ := by
    rw [hrun]
    simp only [sftpRun]
    have hgt : ("" : String).length < effPos env1 pos0 := heff
    simp [hgt]
  refine ⟨?_, ?_, ?_, ?_⟩
  · intro cfg2 env2
    have he : effPos env2 0 = effPos env2 (load_log_position env2) := by
      unfold effPos
      by_cases hz : load_log_position env2 = 0
      · simp [hz]
      · simp [hz]
    unfold check_log_for_deaths
    rw [he]
  · rw [hr1]
  · rw [hr1]
    exact hstore
  · intro env2 h2
    rw [hr1] at h2
    refine ⟨?_, by omega⟩
    rw [hr1]
    unfold effPos load_log_position
    simp only [if_pos rfl]
    rw [h2, hstore]
    rfl

def envStale : Env :=
  { posFile := some 1000, conn := true
    remoteFile := .ok "", remoteReadErr := false
    localFile := none, localStatErr := false, localReadErr := false }

/-- Witness for C9: a rotation against an empty remote file leaves the
in-memory cursor at 0 while the store still holds the stale 1000. -/
theorem c9_witness :
    (check_log_for_deaths cfgSftp envStale 3).pos = 0 ∧
    (check_log_for_deaths cfgSftp envStale 3).store = some 1000 :=
  ⟨(c9_cursor_reload cfgSftp envStale 1000 3 (by decide)
      ⟨rfl, by decide, rfl, rfl, rfl⟩ rfl).2.1,
   (c9_cursor_reload cfgSftp envStale 1000 3 (by decide)
      ⟨rfl, by decide, rfl, rfl, rfl⟩ rfl).2.2.1⟩

/-- C10: when host, username and remote log path are all configured the
local log file is never consulted — the result does not depend on the
local-file part of the environment at all — and when the remote session
cannot be established (in particular because the secret is missing,
which the mode decision does not test) the call returns the empty list
instead of falling back to the local file. -/
theorem c10_mode_ignores_secret (cfg : BotConfig) (env : Env) (pos0 : Nat)
    (h : use_sftp cfg = true) :
    (check_log_for_deaths cfg env pos0).usedLocal = false ∧
    (∀ lf ls lr, check_log_for_deaths cfg
        { env with localFile := lf, localStatErr := ls, localReadErr := lr }
        pos0 = check_log_for_deaths cfg env pos0) ∧
    (get_sftp_connection cfg env = none →
        check_log_for_deaths cfg env pos0 =
          ⟨[], effPos env pos0, env.posFile, none, false⟩) ∧
    (cfg.SFTP_PASSWORD = "" →
        (check_log_for_deaths cfg env pos0).msgs = [] ∧
        (check_log_for_deaths cfg env pos0).usedLocal = false) := by
  have hguard : (!use_sftp cfg && (cfg.LOG_FILE_PATH == "")) = false := by
    simp [h]
  have h3 : get_sftp_connection cfg env = none →
      check_log_for_deaths cfg env pos0 =
        ⟨[], effPos env pos0, env.posFile, none, false⟩ := by
    intro hg
    unfold check_log_for_deaths tryBlock
    simp [hguard, h, hg]
  have hguardP : ¬ ((!use_sftp cfg && (cfg.LOG_FILE_PATH == "")) = true) := by
    simp [h]
  have hul : (check_log_for_deaths cfg env pos0).usedLocal = false := by
    unfold check_log_for_deaths tryBlock
    rw [if_neg hguardP, if_pos h]
    cases hg : get_sftp_connection cfg env with
    | none => simp only [hg]
    | some u =>
      simp only [hg]
      cases hf : env.remoteFile with
      | error pe =>
        cases pe <;> simp only [hf]
      | ok content =>
        simp only [hf]
        by_cases h2 : (if effPos env pos0 > content.length then 0
            else effPos env pos0) < content.length
        · rw [if_pos h2]
          by_cases hr : env.remoteReadErr = true
          · rw [if_pos hr]
          · rw [if_neg hr]
        · rw [if_neg h2]
  refine ⟨hul, ?_, h3, ?_⟩
  · intro lf ls lr
    unfold check_log_for_deaths tryBlock get_sftp_connection effPos
      load_log_position
    simp [h, hguard]
  · intro hpw
    have hg : get_sftp_connection cfg env = none := by
      unfold get_sftp_connection
      simp [hpw]
    rw [h3 hg]
    exact ⟨rfl, rfl⟩

def cfgNoPw : BotConfig :=
  { SFTP_HOST := "host", SFTP_USERNAME := "user", SFTP_PASSWORD := ""
    SFTP_LOG_PATH := "/logs/latest.log", LOG_FILE_PATH := "/local.log" }

def envLocalDeath : Env :=
  { posFile := none, conn := true
    remoteFile := .ok lineWithColon, remoteReadErr := false
    localFile := some lineWithColon, localStatErr := false
    localReadErr := false }

/-- Witness for C10: with the secret missing but host, username and
remote path set, the call reports nothing and never touches the local
log even though a local file with a death line is configured. -/
theorem c10_witness :
    (check_log_for_deaths cfgNoPw envLocalDeath 0).msgs = [] ∧
    (check_log_for_deaths cfgNoPw envLocalDeath 0).usedLocal = false :=
  (c10_mode_ignores_secret cfgNoPw envLocalDeath 0 rfl).2.2.2 rfl

/-! ### Membership lemmas for the validation error list -/

theorem seg_token_mem (c : RawConfig) (y : String) :
    y ∈ segToken c ↔ (vToken c = true ∧ y = msgTokenUnset) := by
  unfold segToken vToken
  cases h : pyFalsy c.TOKEN <;> simp [h]

theorem seg_channel_mem (c : RawConfig) (y : String) :
    y ∈ segChannel c ↔
      ((vChannelUnset c = true ∧ y = msgChannelUnset) ∨
        (vChannelInt c = true ∧ y = msgChannelInt)) := by
  unfold segChannel vChannelUnset vChannelInt
  cases h : pyFalsy c.CHANNEL_ID <;>
    cases hpi : pyInt (optStr c.CHANNEL_ID) <;> simp [h, hpi]

theorem seg_host_mem (c : RawConfig) (y : String) :
    y ∈ segHost c ↔ (vHost c = true ∧ y = msgHostUnset) := by
  unfold segHost vHost
  cases h : pyFalsy c.RCON_HOST <;> simp [h]

theorem seg_password_mem (c : RawConfig) (y : String) :
    y ∈ segPassword c ↔ (vPassword c = true ∧ y = msgPasswordUnset) := by
  unfold segPassword vPassword
  cases h : pyFalsy c.RCON_PASSWORD <;> simp [h]

theorem seg_port_mem (c : RawConfig) (y : String) :
    y ∈ segPort c ↔
      ((vPortRange c = true ∧ y = msgPortRange) ∨
        (vPortInt c = true ∧ y = msgPortInt)) := by
  unfold segPort vPortRange vPortInt
  cases hpi : pyInt c.RCON_PORT with
  | none => simp [hpi]
  | some p =>
    by_cases hr : p < 1 ∨ 65535 < p
    · simp [hpi, hr]
    · simp [hpi, hr]

theorem seg_poll_mem (c : RawConfig) (y : String) :
    y ∈ segPoll c ↔
      ((vPollMin c = true ∧ y = msgPollMin) ∨
        (vPollInt c = true ∧ y = msgPollInt)) := by
  cases hpi : pyInt c.POLL_SECONDS with
  | none => simp [segPoll, vPollMin, vPollInt, hpi]
  | some p =>
    by_cases hr : p < 1
    · simp [segPoll, vPollMin, vPollInt, hpi, hr]
    · simp [segPoll, vPollMin, vPollInt, hpi, hr]

theorem validate_errors_mem (c : RawConfig) (y : String) :
    y ∈ validate_errors c ↔
      ((vToken c = true ∧ y = msgTokenUnset) ∨
        (vChannelUnset c = true ∧ y = msgChannelUnset) ∨
        (vChannelInt c = true ∧ y = msgChannelInt) ∨
        (vHost c = true ∧ y = msgHostUnset) ∨
        (vPassword c = true ∧ y = msgPasswordUnset) ∨
        (vPortRange c = true ∧ y = msgPortRange) ∨
        (vPortInt c = true ∧ y = msgPortInt) ∨
        (vPollMin c = true ∧ y = msgPollMin) ∨
        (vPollInt c = true ∧ y = msgPollInt)) := by
  unfold validate_errors
  simp [List.mem_append, seg_token_mem, seg_channel_mem, seg_host_mem,
    seg_password_mem, seg_port_mem, seg_poll_mem, or_assoc]

theorem validate_false_iff (c : RawConfig) :
    validate_configuration c = false ↔ anyViolation c = true := by
  unfold validate_configuration anyViolation
  constructor
  · intro hf
    cases hE : validate_errors c with
    | nil =>
      rw [hE] at hf
      simp at hf
    | cons a t =>
      have ha : a ∈ validate_errors c := by
        rw [hE]
        exact List.mem_cons_self a t
      rw [validate_errors_mem] at ha
      rcases ha with ⟨hv, _⟩ | ⟨hv, _⟩ | ⟨hv, _⟩ | ⟨hv, _⟩ | ⟨hv, _⟩ |
        ⟨hv, _⟩ | ⟨hv, _⟩ | ⟨hv, _⟩ | ⟨hv, _⟩ <;> simp [hv]
  · intro ha
    have hne : ∃ y, y ∈ validate_errors c := by
      simp only [Bool.or_eq_true] at ha
      rcases ha with ((((((((h | h) | h) | h) | h) | h) | h) | h) | h)
      · exact ⟨msgTokenUnset, (validate_errors_mem c _).mpr (Or.inl ⟨h, rfl⟩)⟩
      · exact ⟨msgChannelUnset,
          (validate_errors_mem c _).mpr (Or.inr (Or.inl ⟨h, rfl⟩))⟩
      · exact ⟨msgChannelInt,
          (validate_errors_mem c _).mpr (Or.inr (Or.inr (Or.inl ⟨h, rfl⟩)))⟩
      · exact ⟨msgHostUnset,
          (validate_errors_mem c _).mpr
            (Or.inr (Or.inr (Or.inr (Or.inl ⟨h, rfl⟩))))⟩
      · exact ⟨msgPasswordUnset,
          (validate_errors_mem c _).mpr
            (Or.inr (Or.inr (Or.inr (Or.inr (Or.inl ⟨h, rfl⟩)))))⟩
      · exact ⟨msgPortRange,
          (validate_errors_mem c _).mpr
            (Or.inr (Or.inr (Or.inr (Or.inr (Or.inr (Or.inl ⟨h, rfl⟩))))))⟩
      · exact ⟨msgPortInt,
          (validate_errors_mem c _).mpr
            (Or.inr (Or.inr (Or.inr (Or.inr (Or.inr (Or.inr
              (Or.inl ⟨h, rfl⟩)))))))⟩
      · exact ⟨msgPollMin,
          (validate_errors_mem c _).mpr
            (Or.inr (Or.inr (Or.inr (Or.inr (Or.inr (Or.inr (Or.inr
              (Or.inl ⟨h, rfl⟩))))))))⟩
      · exact ⟨msgPollInt,
          (validate_errors_mem c _).mpr
            (Or.inr (Or.inr (Or.inr (Or.inr (Or.inr (Or.inr (Or.inr
              (Or.inr ⟨h, rfl⟩))))))))⟩
    rcases hne with ⟨y, hy⟩
    cases hE : validate_errors c with
    | nil =>
      rw [hE] at hy
      simp at hy
    | cons a t => rfl

theorem startup_exit_iff (c : RawConfig) :
    startup_exit c = some 1 ↔ validate_configuration c = false := by
  unfold startup_exit
  cases hb : validate_configuration c <;> simp [hb]

/-- C8: validation fails — and `__main__` exits with code 1 — exactly
when at least one required setting is missing or invalid, and the error
list contains the message for every violation present at once (each
message is in the list iff its violation holds), not just the first. -/
theorem c8_validation (c : RawConfig) :
    (validate_configuration c = false ↔ anyViolation c = true) ∧
    (startup_exit c = some 1 ↔ validate_configuration c = false) ∧
    (msgTokenUnset ∈ validate_errors c ↔ vToken c = true) ∧
    (msgChannelUnset ∈ validate_errors c ↔ vChannelUnset c = true) ∧
    (msgChannelInt ∈ validate_errors c ↔ vChannelInt c = true) ∧
    (msgHostUnset ∈ validate_errors c ↔ vHost c = true) ∧
    (msgPasswordUnset ∈ validate_errors c ↔ vPassword c = true) ∧
    (msgPortRange ∈ validate_errors c ↔ vPortRange c = true) ∧
    (msgPortInt ∈ validate_errors c ↔ vPortInt c = true) ∧
    (msgPollMin ∈ validate_errors c ↔ vPollMin c = true) ∧
    (msgPollInt ∈ validate_errors c ↔ vPollInt c = true) := by
  refine ⟨validate_false_iff c, startup_exit_iff c, ?_, ?_, ?_, ?_, ?_, ?_,
    ?_, ?_, ?_⟩ <;>
    simp [validate_errors_mem, msgTokenUnset, msgChannelUnset, msgChannelInt,
      msgHostUnset, msgPasswordUnset, msgPortRange, msgPortInt, msgPollMin,
      msgPollInt]

/-! ### `str.strip` commutes with comma-splitting up to per-token strip

These lemmas justify that stripping the whole name list before splitting
(as the code does) and only stripping each token (as the specification
words it) produce the same tokens. -/

theorem dropWhile_append_all {p : Char → Bool} {w : List Char}
    (l : List Char) (h : ∀ a ∈ w, p a = true) :
    (w ++ l).dropWhile p = l.dropWhile p := by
  induction w with
  | nil => rfl
  | cons a w ih =>
    have ha : p a = true := h a (List.mem_cons_self a w)
    simp only [List.cons_append, List.dropWhile_cons, ha, if_true]
    exact ih (fun b hb => h b (List.mem_cons_of_mem a hb))

theorem dropWhile_all_nil {p : Char → Bool} (w : List Char)
    (h : ∀ a ∈ w, p a = true) : w.dropWhile p = [] := by
  have h2 := dropWhile_append_all ([] : List Char) h
  simpa using h2

theorem dropWhile_append_ne_nil {p : Char → Bool} {x : List Char}
    (w : List Char) (h : x.dropWhile p ≠ []) :
    (x ++ w).dropWhile p = x.dropWhile p ++ w := by
  induction x with
  | nil => exact absurd rfl h
  | cons a x ih =>
    cases ha : p a
    · simp [List.dropWhile_cons, ha]
    · simp only [List.cons_append, List.dropWhile_cons, ha, if_true]
      apply ih
      simpa [List.dropWhile_cons, ha] using h

theorem stripL_append_ws (w x : List Char)
    (h : ∀ a ∈ w, pyIsSpace a = true) : stripL (w ++ x) = stripL x := by
  unfold stripL
  exact dropWhile_append_all x h

theorem stripR_append_ws (x w : List Char)
    (h : ∀ a ∈ w, pyIsSpace a = true) : stripR (x ++ w) = stripR x := by
  unfold stripR
  rw [List.reverse_append]
  rw [dropWhile_append_all _ (fun a ha => h a (List.mem_reverse.mp ha))]

theorem pyStrip_ws_append (w x : List Char)
    (h : ∀ a ∈ w, pyIsSpace a = true) : pyStrip (w ++ x) = pyStrip x := by
  unfold pyStrip
  rw [stripL_append_ws w x h]

theorem pyStrip_append_ws (x w : List Char)
    (h : ∀ a ∈ w, pyIsSpace a = true) : pyStrip (x ++ w) = pyStrip x := by
  unfold pyStrip
  by_cases hx : stripL x = []
  · have h1 : stripL (x ++ w) = [] := by
      unfold stripL at hx ⊢
      rw [List.dropWhile_eq_nil_iff] at hx ⊢
      intro a ha
      rcases List.mem_append.mp ha with h2 | h2
      · exact hx a h2
      · exact h a h2
    rw [h1, hx]
  · have h1 : stripL (x ++ w) = stripL x ++ w := by
      unfold stripL at hx ⊢
      exact dropWhile_append_ne_nil w hx
    rw [h1, stripR_append_ws _ _ h]

theorem splitOnChar_ne_nil (c : Char) (l : List Char) :
    splitOnChar c l ≠ [] := by
  induction l with
  | nil => simp [splitOnChar]
  | cons a t ih =>
    by_cases h : (a == c) = true
    · simp [splitOnChar, h]
    · cases hs : splitOnChar c t with
      | nil => exact absurd hs ih
      | cons t0 ts => simp [splitOnChar, h, hs]

theorem splitOnChar_cons_eq (c a : Char) (t : List Char) :
    splitOnChar c (a :: t) =
      if (a == c) = true then [] :: splitOnChar c t
      else (splitOnChar c t).modifyHead (a :: ·) := by
  by_cases h : (a == c) = true
  · simp [splitOnChar, h]
  · cases hs : splitOnChar c t with
    | nil => exact absurd hs (splitOnChar_ne_nil c t)
    | cons t0 ts => simp [splitOnChar, h, hs, List.modifyHead]

theorem splitOnChar_no_sep (c : Char) (w : List Char)
    (h : ∀ a ∈ w, (a == c) = false) : splitOnChar c w = [w] := by
  induction w with
  | nil => rfl
  | cons a t ih =>
    have ha : (a == c) = false := h a (List.mem_cons_self a t)
    rw [splitOnChar_cons_eq]
    rw [if_neg (by simp [ha])]
    rw [ih (fun b hb => h b (List.mem_cons_of_mem a hb))]
    rfl

theorem splitOnChar_ws_append (c : Char) (w l : List Char)
    (hw : ∀ a ∈ w, (a == c) = false) :
    splitOnChar c (w ++ l) = (splitOnChar c l).modifyHead (w ++ ·) := by
  induction w with
  | nil =>
    rw [List.nil_append]
    cases hs : splitOnChar c l with
    | nil => rfl
    | cons t0 ts => simp [List.modifyHead]
  | cons a w ih =>
    have ha : (a == c) = false := hw a (List.mem_cons_self a w)
    rw [List.cons_append, splitOnChar_cons_eq]
    rw [if_neg (by simp [ha])]
    rw [ih (fun b hb => hw b (List.mem_cons_of_mem a hb))]
    cases hs : splitOnChar c l with
    | nil => exact absurd hs (splitOnChar_ne_nil c l)
    | cons t0 ts => simp [List.modifyHead]

def modLast (f : List Char → List Char) :
    List (List Char) → List (List Char)
  | [] => []
  | [a] => [f a]
  | a :: b :: l => a :: modLast f (b :: l)

theorem splitOnChar_append_ws (c : Char) (l w : List Char)
    (hw : ∀ a ∈ w, (a == c) = false) :
    splitOnChar c (l ++ w) = modLast (· ++ w) (splitOnChar c l) := by
  induction l with
  | nil =>
    rw [List.nil_append, splitOnChar_no_sep c w hw]
    rfl
  | cons a l ih =>
    rw [List.cons_append, splitOnChar_cons_eq, splitOnChar_cons_eq]
    by_cases h : (a == c) = true
    · rw [if_pos h, if_pos h, ih]
      cases hs : splitOnChar c l with
      | nil => exact absurd hs (splitOnChar_ne_nil c l)
      | cons t0 ts => rfl
    · rw [if_neg h, if_neg h, ih]
      cases hs : splitOnChar c l with
      | nil => exact absurd hs (splitOnChar_ne_nil c l)
      | cons t0 ts =>
        cases ts with
        | nil => simp [List.modifyHead, modLast]
        | cons t1 ts2 => simp [List.modifyHead, modLast]

theorem map_pyStrip_modifyHead (w : List Char) (xs : List (List Char))
    (h : ∀ a ∈ w, pyIsSpace a = true) :
    (xs.modifyHead (w ++ ·)).map pyStrip = xs.map pyStrip := by
  cases xs with
  | nil => rfl
  | cons x xs => simp [List.modifyHead, pyStrip_ws_append w x h]

theorem map_pyStrip_modLast (w : List Char) (xs : List (List Char))
    (h : ∀ a ∈ w, pyIsSpace a = true) :
    (modLast (· ++ w) xs).map pyStrip = xs.map pyStrip := by
  induction xs with
  | nil => rfl
  | cons x xs ih =>
    cases xs with
    | nil => simp [modLast, pyStrip_append_ws x w h]
    | cons y ys =>
      simp only [modLast, List.map_cons]
      rw [ih]
      simp

theorem ws_not_comma (a : Char) (h : pyIsSpace a = true) :
    (a == ',') = false := by
  cases hb : (a == ',') with
  | false => rfl
  | true =>
    have ha : a = ',' := by simpa using hb
    rw [ha] at h
    exact absurd h (by decide)

theorem pyStrip_decomp (l : List Char) :
    ∃ w w2, (∀ a ∈ w, pyIsSpace a = true) ∧ (∀ a ∈ w2, pyIsSpace a = true) ∧
      l = w ++ (pyStrip l ++ w2) := by
  refine ⟨l.takeWhile pyIsSpace,
    ((stripL l).reverse.takeWhile pyIsSpace).reverse, ?_, ?_, ?_⟩
  · intro a ha
    exact List.mem_takeWhile_imp ha
  · intro a ha
    exact List.mem_takeWhile_imp (List.mem_reverse.mp ha)
  · have h1 : l = l.takeWhile pyIsSpace ++ stripL l := by
      unfold stripL
      exact (List.takeWhile_append_dropWhile pyIsSpace l).symm
    have h3 : (stripL l).reverse.takeWhile pyIsSpace ++
        (stripL l).reverse.dropWhile pyIsSpace = (stripL l).reverse :=
      List.takeWhile_append_dropWhile pyIsSpace (stripL l).reverse
    have h4 := congrArg List.reverse h3
    rw [List.reverse_append, List.reverse_reverse] at h4
    have h2 : stripL l =
        pyStrip l ++ ((stripL l).reverse.takeWhile pyIsSpace).reverse := by
      unfold pyStrip stripR
      exact h4.symm
    conv_lhs => rw [h1, h2]

theorem map_pyStrip_splitOnChar (l : List Char) :
    (splitOnChar ',' l).map pyStrip =
      (splitOnChar ',' (pyStrip l)).map pyStrip := by
  obtain ⟨w, w2, hw, hw2, hdec⟩ := pyStrip_decomp l
  have hwc : ∀ a ∈ w, (a == ',') = false := fun a ha => ws_not_comma a (hw a ha)
  have hw2c : ∀ a ∈ w2, (a == ',') = false :=
    fun a ha => ws_not_comma a (hw2 a ha)
  conv_lhs => rw [hdec]
  rw [splitOnChar_ws_append ',' w (pyStrip l ++ w2) hwc,
    map_pyStrip_modifyHead w _ hw,
    splitOnChar_append_ws ',' (pyStrip l) w2 hw2c,
    map_pyStrip_modLast w2 _ hw2]

theorem namesToSet_pyStrip (l : List Char) :
    namesToSet l = namesToSet (pyStrip l) := by
  unfold namesToSet
  rw [map_pyStrip_splitOnChar]

/-- C6: for every response string, `rcon_list_players` returns exactly
the set described by the specification — everything after the marker
substring, split on commas, trimmed, empty tokens discarded; when the
marker is absent it returns the empty set instead of raising; and it
raises exactly when the connection or the command itself failed. -/
theorem c6_query_parsing :
    (∀ resp : String, rcon_list_players (.ok resp) =
        .ok (queryParticipants_spec resp)) ∧
    (∀ e, rcon_list_players (.error e) = .error e) ∧
    (∀ resp : String, afterSub onlineMarker resp.data = none →
        rcon_list_players (.ok resp) = .ok ∅) := by
  refine ⟨?_, fun e => rfl, ?_⟩
  · intro resp
    unfold rcon_list_players queryParticipants_spec
    dsimp only
    cases ha : afterSub onlineMarker resp.data with
    | none => rfl
    | some rest =>
      dsimp only
      by_cases he : (pyStrip rest).isEmpty = true
      · rw [if_pos he]
        have h0 : pyStrip rest = [] := by
          simpa using he
        have h2 : namesToSet rest = ∅ := by
          rw [namesToSet_pyStrip, h0]
          decide
        rw [h2]
      · rw [if_neg he]
        rw [namesToSet_pyStrip rest]
  · intro resp ha
    unfold rcon_list_players
    simp [ha]

def respGarbage : String := "garbage"

/-- Witness for C6: a response without the marker substring yields the
empty set, not an exception. -/
theorem c6_witness :
    rcon_list_players (Except.ok respGarbage) = .ok ∅ :=
  c6_query_parsing.2.2 respGarbage rfl
